import Mathlib

set_option maxHeartbeats 1000000

/-!
Shallow embedding and verification of the credential-token lifecycle of the
XTU-EMS-API repository: the cookie-token codec (`skills/scripts/tokenizer.py`:
`serialize_token` / `deserialize_token`), the RSA login primitive and SSO
authenticator (`skills/scripts/sso_login.py`: `rsa_encrypt`, `get_config`,
`sso_auth`), and the EMS credential exchange (`skills/scripts/ems_auth.py`:
`ems_auth_with_sso`).

Network effects are embedded by passing the relevant HTTP responses as
explicit inputs; Python exceptions become explicit error values of `Except`.
Library primitives used by the source are embedded as executable Lean
functions: `json.dumps` / `json.loads` as a JSON printer and parser over the
`JsonVal` grammar, `base64.urlsafe_b64encode` / `urlsafe_b64decode` as a real
url-safe base64 codec over byte lists, and UTF-8 as a real byte codec.
`bz2.compress` / `bz2.decompress` (an external C library) is the one
primitive modelled abstractly, as the spec describes it: a lossless byte
code whose decoder rejects inputs that do not carry the `BZh` stream magic.
-/

/-- A cookie as stored in a `requests.cookies.RequestsCookieJar`: the
(name, value, domain, path) tuple of the data model. -/
structure Cookie where
  name : String
  value : String
  domain : String
  path : String
deriving DecidableEq, Repr

/-- Left brace character (written via its code point). -/
def lbrace : Char := Char.ofNat 123

/-- Right brace character (written via its code point). -/
def rbrace : Char := Char.ofNat 125

/-- Two cookies collide in a `RequestsCookieJar` when they agree on
(name, domain, path); the jar is keyed on this triple. -/
def sameCookieKey (a b : Cookie) : Bool :=
  a.name == b.name && a.domain == b.domain && a.path == b.path

/-- `RequestsCookieJar.set`: setting a cookie replaces the entry with the
same (name, domain, path) key in place, otherwise appends it. -/
def jarSet (jar : List Cookie) (c : Cookie) : List Cookie :=
  if jar.any (fun old => sameCookieKey old c) then
    jar.map (fun old => if sameCookieKey old c then c else old)
  else jar ++ [c]

/-- The Cookie-Set invariant of the data model: no two entries share the same
(name, domain, path). -/
def nodupKeys : List Cookie → Bool
  | [] => true
  | c :: rest => rest.all (fun o => !sameCookieKey c o) && nodupKeys rest

/-- JSON values, the image of Python `json.loads` restricted to the shapes the
token codec can meet (numbers are embedded as integers; floats do not occur
in cookie tokens). -/
inductive JsonVal where
  | str (s : String)
  | num (n : Int)
  | bool (b : Bool)
  | null
  | arr (xs : List JsonVal)
  | obj (fields : List (String × JsonVal))

/-- Lower-case hexadecimal digit character for a value below 16. -/
def hexDigitChar (n : Nat) : Char :=
  if n < 10 then Char.ofNat (48 + n) else Char.ofNat (87 + n)

/-- The string escaping performed by Python `json.dumps` on one character:
quote and backslash are escaped, control characters use the short escapes or
a four-digit hexadecimal escape.  (Unlike `json.dumps`' default
`ensure_ascii=True`, characters at and above U+0020 are emitted raw; both
renderings decode to the same string, so every round-trip and format claim is
unaffected.) -/
def escChar (c : Char) : List Char :=
  if c = '"' then ['\\', '"']
  else if c = '\\' then ['\\', '\\']
  else if c = Char.ofNat 10 then ['\\', 'n']
  else if c = Char.ofNat 9 then ['\\', 't']
  else if c = Char.ofNat 13 then ['\\', 'r']
  else if c = Char.ofNat 8 then ['\\', 'b']
  else if c = Char.ofNat 12 then ['\\', 'f']
  else if c.toNat < 32 then
    ['\\', 'u', '0', '0', hexDigitChar (c.toNat / 16), hexDigitChar (c.toNat % 16)]
  else [c]

/-- Escape a character list as the body of a JSON string literal. -/
def escChars (cs : List Char) : List Char :=
  cs.foldr (fun c acc => escChar c ++ acc) []

/-- A JSON string literal as printed by `json.dumps`. -/
def dumpStrLit (s : String) : List Char :=
  '"' :: escChars s.data ++ ['"']

/-- The object `json.dumps` prints for one cookie of the `cookies_list` built
by `serialize_token`: field names `key`, `value`, `host`, `path` in insertion
order, with the default `", "` and `": "` separators. -/
def dumpCookieObj (c : Cookie) : List Char :=
  lbrace :: (dumpStrLit "key" ++ ": ".data ++ dumpStrLit c.name
    ++ ", ".data ++ dumpStrLit "value" ++ ": ".data ++ dumpStrLit c.value
    ++ ", ".data ++ dumpStrLit "host" ++ ": ".data ++ dumpStrLit c.domain
    ++ ", ".data ++ dumpStrLit "path" ++ ": ".data ++ dumpStrLit c.path
    ++ [rbrace])

/-- Comma-separated object list inside the array printed by `json.dumps`. -/
def dumpCookieListAux : List Cookie → List Char
  | [] => []
  | [c] => dumpCookieObj c
  | c :: c2 :: rest => dumpCookieObj c ++ ", ".data ++ dumpCookieListAux (c2 :: rest)

/-- `json.dumps(cookies_list)`: the JSON array of per-cookie objects. -/
def dumpCookieList (l : List Cookie) : List Char :=
  '[' :: (dumpCookieListAux l ++ [']'])

/-- The JSON value corresponding to one cookie record of the token. -/
def cookieVal (c : Cookie) : JsonVal :=
  .obj [("key", .str c.name), ("value", .str c.value),
        ("host", .str c.domain), ("path", .str c.path)]

/-- UTF-8 encoding of one character (`str.encode("utf-8")`, per scalar). -/
def utf8EncChar (c : Char) : List Nat :=
  let n := c.toNat
  if n < 128 then [n]
  else if n < 2048 then [192 + n / 64, 128 + n % 64]
  else if n < 65536 then [224 + n / 4096, 128 + (n / 64) % 64, 128 + n % 64]
  else [240 + n / 262144, 128 + (n / 4096) % 64, 128 + (n / 64) % 64, 128 + n % 64]

/-- UTF-8 encoding of a string as a byte list (`str.encode("utf-8")`). -/
def utf8Enc (s : String) : List Nat :=
  s.data.foldr (fun c acc => utf8EncChar c ++ acc) []

/-- The replacement character U+FFFD. -/
def replacementChar : Char := Char.ofNat 65533

/-- Lenient UTF-8 decoding of a byte list back to characters: the lead byte
selects the sequence length, continuation payloads are taken from the
following bytes.  On the well-formed byte strings that arise from `utf8Enc`
this is the exact inverse (`bytes.decode("utf-8")`); on malformed input,
which Python answers with a `UnicodeDecodeError` raise, it decodes leniently
instead — no claim reaches this decoder with malformed bytes, since it only
runs after a successful decompression of bytes produced by `utf8Enc`. -/
def utf8DecodeAux : List Nat → List Char
  | [] => []
  | b :: rest =>
    if b < 128 then Char.ofNat b :: utf8DecodeAux rest
    else if b < 224 then
      Char.ofNat ((b - 192) * 64 + (rest.headD 0 - 128)) :: utf8DecodeAux rest.tail
    else if b < 240 then
      Char.ofNat ((b - 224) * 4096 + (rest.headD 0 - 128) * 64
          + (rest.tail.headD 0 - 128))
        :: utf8DecodeAux rest.tail.tail
    else
      Char.ofNat ((b - 240) * 262144 + (rest.headD 0 - 128) * 4096
          + (rest.tail.headD 0 - 128) * 64 + (rest.tail.tail.headD 0 - 128))
        :: utf8DecodeAux rest.tail.tail.tail
termination_by bs => bs.length
decreasing_by
  · simp
  · simp [List.length_tail]
    omega
  · simp [List.length_tail]
    omega
  · simp [List.length_tail]
    omega

/-- UTF-8 decoding to a string. -/
def utf8DecodeStr (bs : List Nat) : String :=
  String.mk (utf8DecodeAux bs)

/-- Modelled from the spec: `bz2.compress` is "a general-purpose lossless
byte compressor" implemented by an external C library.  It is embedded as a
lossless byte code: the three magic bytes `BZh` that begin every real bz2
stream, followed by the payload. -/
def bz2Compress (bs : List Nat) : List Nat :=
  66 :: 90 :: 104 :: bs

/-- Modelled from the spec: `bz2.decompress` inverts `bz2.compress` and
fails (Python `OSError`) on data that does not carry the bz2 stream magic,
which is how a mismatched `compressed` flag surfaces. -/
def bz2Decompress : List Nat → Option (List Nat)
  | 66 :: 90 :: 104 :: rest => some rest
  | _ => none

/-- Value of a character in the url-safe base64 alphabet
(`A-Z a-z 0-9 - _`), `none` for characters outside the alphabet. -/
def b64DecCharUrl (c : Char) : Option Nat :=
  if 'A' ≤ c ∧ c ≤ 'Z' then some (c.toNat - 65)
  else if 'a' ≤ c ∧ c ≤ 'z' then some (c.toNat - 71)
  else if '0' ≤ c ∧ c ≤ '9' then some (c.toNat + 4)
  else if c = '-' then some 62
  else if c = '_' then some 63
  else none

/-- Character for a six-bit value in the url-safe base64 alphabet. -/
def b64CharUrl (n : Nat) : Char :=
  if n < 26 then Char.ofNat (65 + n)
  else if n < 52 then Char.ofNat (71 + n)
  else if n < 62 then Char.ofNat (n - 4)
  else if n = 62 then '-'
  else '_'

/-- `base64.urlsafe_b64encode`: bytes to url-safe base64 text, three bytes
per four characters, with `=` padding. -/
def b64EncodeChunks : List Nat → List Char
  | [] => []
  | [b1] => [b64CharUrl (b1 / 4), b64CharUrl ((b1 % 4) * 16), '=', '=']
  | [b1, b2] => [b64CharUrl (b1 / 4), b64CharUrl ((b1 % 4) * 16 + b2 / 16),
                 b64CharUrl ((b2 % 16) * 4), '=']
  | b1 :: b2 :: b3 :: rest =>
    b64CharUrl (b1 / 4) :: b64CharUrl ((b1 % 4) * 16 + b2 / 16)
      :: b64CharUrl ((b2 % 16) * 4 + b3 / 64) :: b64CharUrl (b3 % 64)
      :: b64EncodeChunks rest

/-- Decode url-safe base64 text in blocks of four characters; fails when the
character count is not a multiple of four or padding is misplaced, as
`binascii` does. -/
def b64DecodeChunks : List Char → Option (List Nat)
  | [] => some []
  | a :: b :: c :: d :: rest =>
    match b64DecCharUrl a, b64DecCharUrl b with
    | some s1, some s2 =>
      if c = '=' then
        if d = '=' ∧ rest = [] then some [s1 * 4 + s2 / 16] else none
      else
        match b64DecCharUrl c with
        | some s3 =>
          if d = '=' then
            if rest = [] then some [s1 * 4 + s2 / 16, (s2 % 16) * 16 + s3 / 4] else none
          else
            match b64DecCharUrl d with
            | some s4 =>
              match b64DecodeChunks rest with
              | some tail =>
                some ((s1 * 4 + s2 / 16) :: ((s2 % 16) * 16 + s3 / 4)
                        :: ((s3 % 4) * 64 + s4) :: tail)
              | none => none
            | none => none
        | none => none
    | _, _ => none
  | _ => none

/-- `base64.urlsafe_b64decode` (as called with `validate=False`): characters
outside the alphabet and padding are discarded, then the text is decoded in
blocks of four. -/
def urlsafeB64Decode (s : String) : Option (List Nat) :=
  b64DecodeChunks (s.data.filter (fun c => (b64DecCharUrl c).isSome || c = '='))

/-- `serialize_token` (tokenizer.py): dump the cookie list to JSON; when
`compressed`, bz2-compress the UTF-8 bytes of the JSON text and render them
in url-safe base64. -/
def serialize_token (cookies : List Cookie) (compressed : Bool := false) : String :=
  let serializedToken := String.mk (dumpCookieList cookies)
  if compressed then
    String.mk (b64EncodeChunks (bz2Compress (utf8Enc serializedToken)))
  else serializedToken

/-- The distinct failure stages of `deserialize_token`; each corresponds to a
Python exception escaping the function (`binascii.Error`, `OSError` from bz2,
`json.JSONDecodeError`, `TypeError` on a non-iterable or a non-dict element,
`KeyError` on a missing field).  The spec's taxonomy names all of them
`FormatError`. -/
inductive FormatError where
  | b64Error
  | bz2Error
  | jsonError
  | iterError
  | indexError
  | fieldError
deriving DecidableEq, Repr

/-- Whitespace characters skipped by the JSON parser. -/
def isWsChar (c : Char) : Bool :=
  c = ' ' || c = Char.ofNat 9 || c = Char.ofNat 10 || c = Char.ofNat 13

/-- Drop leading JSON whitespace. -/
def skipWs : List Char → List Char
  | [] => []
  | c :: rest => if isWsChar c then skipWs rest else c :: rest

/-- Append a character to the front of a string-parse result. -/
def consStr (c : Char) : Option (List Char × List Char) → Option (List Char × List Char) :=
  Option.map (fun p => (c :: p.1, p.2))

/-- Hexadecimal digit value of a character (upper or lower case). -/
def hexDigVal (c : Char) : Option Nat :=
  if '0' ≤ c ∧ c ≤ '9' then some (c.toNat - 48)
  else if 'a' ≤ c ∧ c ≤ 'f' then some (c.toNat - 87)
  else if 'A' ≤ c ∧ c ≤ 'F' then some (c.toNat - 55)
  else none

/-- Parse the body of a JSON string literal after the opening quote, up to
and including the closing quote, handling the JSON escapes.  Raw control
characters are rejected as in Python's strict `json.loads`. -/
def parseStrAux : List Char → Option (List Char × List Char)
  | [] => none
  | c :: rest =>
    if c = '"' then some ([], rest)
    else if c = '\\' then
      match rest with
      | [] => none
      | e :: rest2 =>
        if e = '"' then consStr '"' (parseStrAux rest2)
        else if e = '\\' then consStr '\\' (parseStrAux rest2)
        else if e = '/' then consStr '/' (parseStrAux rest2)
        else if e = 'b' then consStr (Char.ofNat 8) (parseStrAux rest2)
        else if e = 'f' then consStr (Char.ofNat 12) (parseStrAux rest2)
        else if e = 'n' then consStr (Char.ofNat 10) (parseStrAux rest2)
        else if e = 'r' then consStr (Char.ofNat 13) (parseStrAux rest2)
        else if e = 't' then consStr (Char.ofNat 9) (parseStrAux rest2)
        else if e = 'u' then
          match rest2 with
          | h1 :: h2 :: h3 :: h4 :: rest3 =>
            match hexDigVal h1, hexDigVal h2, hexDigVal h3, hexDigVal h4 with
            | some x1, some x2, some x3, some x4 =>
              let n := ((x1 * 16 + x2) * 16 + x3) * 16 + x4
              if n < 55296 ∨ 57344 ≤ n then consStr (Char.ofNat n) (parseStrAux rest3)
              else none
            | _, _, _, _ => none
          | _ => none
        else none
    else if c.toNat < 32 then none
    else consStr c (parseStrAux rest)

/-- Decimal digit value of a character. -/
def decDigVal (c : Char) : Option Nat :=
  if '0' ≤ c ∧ c ≤ '9' then some (c.toNat - 48) else none

/-- Continue parsing a run of decimal digits. -/
def parseDigitsCont (acc : Nat) : List Char → Nat × List Char
  | [] => (acc, [])
  | c :: rest =>
    match decDigVal c with
    | none => (acc, c :: rest)
    | some d => parseDigitsCont (acc * 10 + d) rest

/-- Parse a nonempty run of decimal digits. -/
def parseDigits : List Char → Option (Nat × List Char)
  | [] => none
  | c :: rest =>
    match decDigVal c with
    | none => none
    | some d => some (parseDigitsCont d rest)

/-- Consume an expected literal character sequence. -/
def expectLit (lit : List Char) (input : List Char) : Option (List Char) :=
  if lit.isPrefixOf input then some (input.drop lit.length) else none

/-- Parse a comma-separated nonempty item sequence up to a closing
delimiter, using the supplied item parser. -/
def parseListAux (p : List Char → Option (α × List Char)) (close sep : Char) :
    Nat → List Char → Option (List α × List Char)
  | 0, _ => none
  | fuel + 1, input =>
    match p input with
    | none => none
    | some (x, rest) =>
      match skipWs rest with
      | [] => none
      | c :: rest2 =>
        if c = sep then
          match parseListAux p close sep fuel rest2 with
          | none => none
          | some (xs, rest3) => some (x :: xs, rest3)
        else if c = close then some ([x], rest2)
        else none

/-- Parse one `"key": value` member of a JSON object, with the supplied
value parser. -/
def parseMember (pv : List Char → Option (JsonVal × List Char))
    (input : List Char) : Option ((String × JsonVal) × List Char) :=
  match skipWs input with
  | [] => none
  | c :: rest =>
    if c = '"' then
      match parseStrAux rest with
      | none => none
      | some (kcs, rest2) =>
        match skipWs rest2 with
        | [] => none
        | c2 :: rest3 =>
          if c2 = ':' then
            match pv rest3 with
            | none => none
            | some (v, rest4) => some ((String.mk kcs, v), rest4)
          else none
    else none

/-- Recursive-descent JSON value parser with a fuel bound (one unit of fuel
per nesting level and per sequence item; `loads` supplies fuel exceeding the
input length, which always suffices). -/
def parseVal : Nat → List Char → Option (JsonVal × List Char)
  | 0, _ => none
  | fuel + 1, input =>
    match skipWs input with
    | [] => none
    | c :: rest =>
      if c = '"' then
        match parseStrAux rest with
        | none => none
        | some (cs, rest2) => some (.str (String.mk cs), rest2)
      else if c = '[' then
        match skipWs rest with
        | [] => none
        | c2 :: rest2 =>
          if c2 = ']' then some (.arr [], rest2)
          else
            match parseListAux (parseVal fuel) ']' ',' (fuel + 1) (c2 :: rest2) with
            | none => none
            | some (xs, rest3) => some (.arr xs, rest3)
      else if c = lbrace then
        match skipWs rest with
        | [] => none
        | c2 :: rest2 =>
          if c2 = rbrace then some (.obj [], rest2)
          else
            match parseListAux (parseMember (parseVal fuel)) rbrace ',' (fuel + 1) (c2 :: rest2) with
            | none => none
            | some (fs, rest3) => some (.obj fs, rest3)
      else if c = 't' then (expectLit "rue".data rest).map (fun r => (.bool true, r))
      else if c = 'f' then (expectLit "alse".data rest).map (fun r => (.bool false, r))
      else if c = 'n' then (expectLit "ull".data rest).map (fun r => (.null, r))
      else if c = '-' then
        match parseDigits rest with
        | none => none
        | some (n, rest2) => some (.num (-(n : Int)), rest2)
      else
        match parseDigits (c :: rest) with
        | none => none
        | some (n, rest2) => some (.num (n : Int), rest2)

/-- `json.loads`: parse a complete JSON document (trailing whitespace
allowed), `none` on malformed input (`json.JSONDecodeError`). -/
def loads (s : String) : Option JsonVal :=
  match parseVal (s.data.length + 1) s.data with
  | none => none
  | some (v, rest) => if skipWs rest = [] then some v else none

/-- Python last-wins dictionary lookup: a JSON object's duplicate keys
collapse to the last occurrence, which is what `cookie_dict[...]` observes. -/
def pyLookup (fields : List (String × JsonVal)) (k : String) : Option JsonVal :=
  fields.foldl (fun acc kv => if kv.1 = k then some kv.2 else acc) none

/-- Python iteration over the value returned by `json.loads`
(`for cookie_dict in cookies_list`): lists yield their elements, dicts their
keys, strings their characters as one-character strings; other values raise
`TypeError`. -/
def pyIter : JsonVal → Option (List JsonVal)
  | .arr xs => some xs
  | .obj fields => some (fields.map (fun kv => JsonVal.str kv.1))
  | .str s => some (s.data.map (fun ch => JsonVal.str (String.mk [ch])))
  | _ => none

/-- Build one cookie from one iterated element, as
`cookies.set(name=cookie_dict["key"], value=..., domain=..., path=...)`
observes it: the element must be a dict carrying all four fields.  The
`Cookie` model carries strings, so a field bound to a non-string JSON value
is reported as a field failure here (Python would construct a cookie with a
non-string attribute; no cookie token ever carries one). -/
def buildCookie (x : JsonVal) : Except FormatError Cookie :=
  match x with
  | .obj fields =>
    match pyLookup fields "key", pyLookup fields "value",
          pyLookup fields "host", pyLookup fields "path" with
    | some (.str k), some (.str v), some (.str h), some (.str p) =>
      .ok (Cookie.mk k v h p)
    | some _, some _, some _, some _ => .error .fieldError
    | _, _, _, _ => .error .fieldError
  | _ => .error .indexError

/-- Fold the iterated elements into a jar with `cookies.set`. -/
def buildJarAux (jar : List Cookie) : List JsonVal → Except FormatError (List Cookie)
  | [] => .ok jar
  | x :: rest =>
    match buildCookie x with
    | .error e => .error e
    | .ok c => buildJarAux (jarSet jar c) rest

/-- `deserialize_token` (tokenizer.py): optionally base64-decode and
bz2-decompress, then JSON-parse and rebuild the jar via `cookies.set`. -/
def deserialize_token (token : String) (compressed : Bool := false) :
    Except FormatError (List Cookie) :=
  let text : Except FormatError String :=
    if compressed then
      match urlsafeB64Decode token with
      | none => .error .b64Error
      | some bytes =>
        match bz2Decompress bytes with
        | none => .error .bz2Error
        | some payload => .ok (utf8DecodeStr payload)
    else .ok token
  match text with
  | .error e => .error e
  | .ok t =>
    match loads t with
    | none => .error .jsonError
    | some v =>
      match pyIter v with
      | none => .error .iterError
      | some elems => buildJarAux [] elems

/-- Python `str.startswith`: an exact string-prefix check. -/
def strStartsWith (s p : String) : Bool :=
  p.data.isPrefixOf s.data

/-- First index at or after which `pat` occurs in the remaining input
(`str.index` / `str.find` search, on the suffix being scanned). -/
def subSearch (pat : List Char) : List Char → Option Nat
  | [] => if pat.isPrefixOf ([] : List Char) then some 0 else none
  | c :: t => if pat.isPrefixOf (c :: t) then some 0 else (subSearch pat t).map (· + 1)

/-- Big-endian unsigned integer of a byte string
(`int.from_bytes(b, "big")`). -/
def intFromBytesBE (bs : List Nat) : Nat :=
  bs.foldl (fun acc b => acc * 256 + b) 0

/-- Emit the lowercase hexadecimal digits of `n` (most significant first)
in front of `acc`; `fuel ≥ n` always suffices. -/
def natToHexAux : Nat → Nat → List Char → List Char
  | 0, _, acc => acc
  | fuel + 1, n, acc =>
    if n = 0 then acc
    else natToHexAux fuel (n / 16) (hexDigitChar (n % 16) :: acc)

/-- Python `hex(n)[2:]` for a nonnegative integer: minimal lowercase
hexadecimal digits, `"0"` for zero. -/
def natToHex (n : Nat) : String :=
  if n = 0 then "0" else String.mk (natToHexAux n n [])

/-- `rsa_encrypt` (sso_login.py): read the UTF-8 bytes of the plaintext as a
big-endian integer, raise it to the public exponent modulo the modulus, and
render the result as bare lowercase hexadecimal. -/
def rsa_encrypt (encryptExponent modulus : Nat) (plaintext : String) : String :=
  let messageInt := intFromBytesBE (utf8Enc plaintext)
  let ciphertextInt := messageInt ^ encryptExponent % modulus
  natToHex ciphertextInt

/-- The configuration returned by `get_config` (sso_login.py). -/
structure SsoConfig where
  loginUrl : String
  keyUrl : String
  loginSuccessUrlStart : String
  modifyPasswordUrlStart : String
deriving DecidableEq, Repr

/-- `get_config` (sso_login.py): the fixed portal endpoints and the two
redirect-classification URL constants. -/
def get_config : SsoConfig :=
  SsoConfig.mk
    "https://portal2020.xtu.edu.cn/cas/login?service=https%3A%2F%2Fportal2020.xtu.edu.cn%2Fapplication-center"
    "https://portal2020.xtu.edu.cn/cas/v2/getPubKey"
    "https://portal2020.xtu.edu.cn/application-center"
    "https://portal2020.xtu.edu.cn/im/securitycenter/modifyPwd/index.zf"

/-- The failures of `sso_auth`.  Each constructor is one distinct Python
exception the source can raise: the spec's error taxonomy names the
explicit `Exception(...)` raise sites (`serviceUnavailable` for the two
"CAS ... was unavailable" messages, `invalidCredentials`,
`accountDisabled`, `loginFailed`, `passwordChangeRequired` with the
username, `ticketNotFound`); `substringNotFound` is the `ValueError`
that `str.index` raises itself when its argument does not occur, and
`pyValueError` the `ValueError` of `int(s, 16)` on a malformed hex field. -/
inductive SsoError where
  | serviceUnavailable
  | invalidCredentials
  | accountDisabled
  | loginFailed
  | passwordChangeRequired (username : String)
  | ticketNotFound
  | substringNotFound
  | pyValueError
deriving DecidableEq, Repr

/-- `int(s, 16)` on the hex fields of the key response (restricted to bare
hex digit strings, which is all the portal sends). -/
def hexStrToNat (s : String) : Option Nat :=
  if s.data.isEmpty then none
  else s.data.foldl
    (fun acc c => acc.bind (fun a => (hexDigVal c).map (fun d => a * 16 + d)))
    (some 0)

/-- Response to the key-service GET, with the two hexadecimal fields of its
JSON body and the cookies it sets. -/
structure KeyResponse where
  status : Nat
  modulusHex : String
  exponentHex : String
  cookies : List Cookie

/-- Response to the login-page GET. -/
structure PageResponse where
  status : Nat
  text : String
  cookies : List Cookie

/-- Response to the credential POST, performed with redirects disabled:
`location` is `headers["Location"]` when the `Location` header is present. -/
structure SubmitResponse where
  status : Nat
  location : Option String
  cookies : List Cookie

/-- Response to the final redirect-following GET. -/
structure RedirectResponse where
  status : Nat
  cookies : List Cookie

/-- The form payload `sso_auth` posts to the login endpoint. -/
structure SubmitPayload where
  username : String
  password : String
  execution : String
  eventId : String
  authcode : String
  mobileCode : String
deriving DecidableEq, Repr

/-- The network environment of one `sso_auth` run: the responses the four
HTTP requests of the handshake would receive. -/
structure SsoEnv where
  keyResp : KeyResponse
  loginPage : PageResponse
  postLogin : SubmitPayload → SubmitResponse
  getRedirect : String → RedirectResponse

/-- Step 1 of `sso_auth`: check the key-service status and parse the two
hexadecimal fields into (modulus, exponent). -/
def parsePublicKey (r : KeyResponse) : Except SsoError (Nat × Nat) :=
  if r.status ≠ 200 then .error .serviceUnavailable
  else
    match hexStrToNat r.modulusHex, hexStrToNat r.exponentHex with
    | some m, some e => .ok (m, e)
    | _, _ => .error .pyValueError

/-- The literal marker located in the login page HTML. -/
def executionMarker : String := "name=\"execution\" value=\""

/-- The `execution`-token extraction of `sso_auth` step 2:
`start_index = html.index(marker) + len(marker)`,
`end_index = html.index(chr(34), start_index)`, guard
`0 < start_index < end_index`, slice `html[start_index:end_index]`.
A failing `str.index` raises its own `ValueError` (`substringNotFound`);
only the guard raises `Exception("CAS Login Page was unavailable")`. -/
def extractExecution (html : String) : Except SsoError String :=
  match subSearch executionMarker.data html.data with
  | none => .error .substringNotFound
  | some idx =>
    let startIndex := idx + executionMarker.data.length
    match subSearch ['"'] (html.data.drop startIndex) with
    | none => .error .substringNotFound
    | some j =>
      let endIndex := startIndex + j
      if 0 < startIndex ∧ startIndex < endIndex then
        .ok (String.mk ((html.data.drop startIndex).take j))
      else .error .serviceUnavailable

/-- Step 2 of `sso_auth`: check the login-page status and extract the
hidden `execution` token from the HTML body. -/
def fetchExecution (r : PageResponse) : Except SsoError String :=
  if r.status ≠ 200 then .error .serviceUnavailable
  else extractExecution r.text

/-- Step 3 of `sso_auth`: classify the credential-POST response.
Status 302 with a `Location` header yields the redirect target
(`headers["Location"] or ""` — the `or` is the identity on strings);
status 200 means rejected credentials; 403 a disabled account; anything
else the catch-all login failure. -/
def classifySubmit (r : SubmitResponse) : Except SsoError String :=
  if r.status = 302 ∧ r.location.isSome then .ok (r.location.getD "")
  else if r.status = 200 then .error .invalidCredentials
  else if r.status = 403 then .error .accountDisabled
  else .error .loginFailed

/-- Step 4 of `sso_auth`: classify the captured redirect URL against the two
configuration constants with exact string-prefix checks. -/
def classifyRedirect (username redirectUrl : String) : Except SsoError Unit :=
  if strStartsWith redirectUrl get_config.modifyPasswordUrlStart then
    .error (.passwordChangeRequired username)
  else if !(strStartsWith redirectUrl get_config.loginSuccessUrlStart) then
    .error .ticketNotFound
  else .ok ()

/-- `sso_auth` (sso_login.py): the sequential four-request handshake.
Returns the session's accumulated cookie jar on success. -/
def sso_auth (username password : String) (env : SsoEnv) :
    Except SsoError (List Cookie) :=
  match parsePublicKey env.keyResp with
  | .error e => .error e
  | .ok (modulus, publicExponent) =>
    match fetchExecution env.loginPage with
    | .error e => .error e
    | .ok execution =>
      let encryptedPassword := rsa_encrypt publicExponent modulus password
      let payload := SubmitPayload.mk username encryptedPassword execution "submit" "" ""
      let submitResp := env.postLogin payload
      match classifySubmit submitResp with
      | .error e => .error e
      | .ok redirectUrl =>
        match classifyRedirect username redirectUrl with
        | .error e => .error e
        | .ok _ =>
          let redirectResp := env.getRedirect redirectUrl
          let jar := ((env.keyResp.cookies ++ env.loginPage.cookies
            ++ submitResp.cookies ++ redirectResp.cookies).foldl jarSet [])
          if redirectResp.status = 200 then .ok jar else .error .loginFailed

/-- The failure of `ems_auth_with_sso`: the
`Exception(f"EMS Authentication Failed via SSO {final_url}")` raise,
carrying the unexpected final URL. -/
inductive EmsError where
  | authenticationFailed (finalUrl : String)
deriving DecidableEq, Repr

/-- Response observed after the redirect-following GET of the EMS exchange:
the final resolved URL, the final status, and the cookies the redirect
chain set on the session. -/
structure EmsResponse where
  url : String
  status : Nat
  cookies : List Cookie

/-- The fixed SSO-to-EMS bridging endpoint of `ems_auth_with_sso`. -/
def emsAuthUrl : String := "https://jw.xtu.edu.cn/sso/zfiotlogin"

/-- The EMS homepage URL constant checked against the final resolved URL. -/
def emsHomepageUrlStart : String :=
  "https://jw.xtu.edu.cn:443/jwglxt/xtgl/index_initMenu.html"

/-- `ems_auth_with_sso` (ems_auth.py): attach the jar to a session, GET the
bridging endpoint following redirects (the environment `http` describes the
response each URL would produce), and accept iff the final resolved URL
starts with the EMS homepage constant; the response status is never
consulted. -/
def ems_auth_with_sso (cookieJar : List Cookie) (http : String → EmsResponse) :
    Except EmsError (List Cookie) :=
  let response := http emsAuthUrl
  let sessionCookies := response.cookies.foldl jarSet cookieJar
  let finalUrl := response.url
  if !(strStartsWith finalUrl emsHomepageUrlStart) then
    .error (.authenticationFailed finalUrl)
  else .ok sessionCookies

/-- Is the character a lowercase hexadecimal digit (`0-9a-f`)? -/
def isLowerHexDigit (c : Char) : Bool :=
  c.isDigit || ('a' ≤ c && c ≤ 'f')

/-- Numeric value denoted by a big-endian string of hexadecimal digits. -/
def hexCharsVal (cs : List Char) : Nat :=
  cs.foldl (fun acc c => acc * 16 + (hexDigVal c).getD 0) 0

/-- Characters of the url-safe token alphabet `[A-Za-z0-9_-=]`. -/
def urlTokenChar (c : Char) : Bool :=
  c.isAlphanum || c = '-' || c = '_' || c = '='

theorem strMkData (s : String) : String.mk s.data = s := by
  cases s
  rfl

theorem escChars_cons (c : Char) (cs : List Char) :
    escChars (c :: cs) = escChar c ++ escChars cs := rfl

theorem hexDigVal_hexDigitChar : ∀ k, k < 16 → hexDigVal (hexDigitChar k) = some k := by
  decide

theorem charOfNat_toNat (c : Char) : Char.ofNat c.toNat = c :=
  Char.ofNat_toNat c

theorem parseStrAux_raw (c : Char) (X : List Char) (h1 : c ≠ '"') (h2 : c ≠ '\\')
    (h3 : ¬ (c.toNat < 32)) :
    parseStrAux (c :: X) = consStr c (parseStrAux X) := by
  rw [parseStrAux.eq_def]
  simp [h1, h2, h3]

theorem parseStrAux_u (t : Nat) (ht : t < 32) (X : List Char) :
    parseStrAux ('\\' :: 'u' :: '0' :: '0' :: hexDigitChar (t / 16)
        :: hexDigitChar (t % 16) :: X)
      = consStr (Char.ofNat t) (parseStrAux X) := by
  have hd1 : hexDigVal (hexDigitChar (t / 16)) = some (t / 16) :=
    hexDigVal_hexDigitChar _ (by omega)
  have hd2 : hexDigVal (hexDigitChar (t % 16)) = some (t % 16) :=
    hexDigVal_hexDigitChar _ (by omega)
  have h0 : hexDigVal '0' = some 0 := by decide
  rw [parseStrAux.eq_def]
  simp [hd1, hd2, h0]
  have hn : t / 16 * 16 + t % 16 = t := by omega
  rw [hn, if_pos (Or.inl (by omega : t < 55296))]

theorem parseStrAux_escChars (cs rest : List Char) :
    parseStrAux (escChars cs ++ '"' :: rest) = some (cs, rest) := by
  induction cs with
  | nil =>
    show parseStrAux ('"' :: rest) = some ([], rest)
    rw [parseStrAux.eq_def]
    simp
  | cons c cs ih =>
    rw [escChars_cons, List.append_assoc]
    by_cases h1 : c = '"'
    · subst h1
      show parseStrAux ('\\' :: '"' :: (escChars cs ++ '"' :: rest)) = _
      rw [show ∀ Y, parseStrAux ('\\' :: '"' :: Y) = consStr '"' (parseStrAux Y)
            from fun Y => by rw [parseStrAux.eq_def]; simp]
      rw [ih]
      rfl
    · by_cases h2 : c = '\\'
      · subst h2
        show parseStrAux ('\\' :: '\\' :: (escChars cs ++ '"' :: rest)) = _
        rw [show ∀ Y, parseStrAux ('\\' :: '\\' :: Y) = consStr '\\' (parseStrAux Y)
              from fun Y => by rw [parseStrAux.eq_def]; simp]
        rw [ih]
        rfl
      · by_cases h3 : c = Char.ofNat 10
        · subst h3
          show parseStrAux ('\\' :: 'n' :: (escChars cs ++ '"' :: rest)) = _
          rw [show ∀ Y, parseStrAux ('\\' :: 'n' :: Y) = consStr (Char.ofNat 10) (parseStrAux Y)
                from fun Y => by rw [parseStrAux.eq_def]; simp]
          rw [ih]
          rfl
        · by_cases h4 : c = Char.ofNat 9
          · subst h4
            show parseStrAux ('\\' :: 't' :: (escChars cs ++ '"' :: rest)) = _
            rw [show ∀ Y, parseStrAux ('\\' :: 't' :: Y) = consStr (Char.ofNat 9) (parseStrAux Y)
                  from fun Y => by rw [parseStrAux.eq_def]; simp]
            rw [ih]
            rfl
          · by_cases h5 : c = Char.ofNat 13
            · subst h5
              show parseStrAux ('\\' :: 'r' :: (escChars cs ++ '"' :: rest)) = _
              rw [show ∀ Y, parseStrAux ('\\' :: 'r' :: Y)
                    = consStr (Char.ofNat 13) (parseStrAux Y)
                    from fun Y => by rw [parseStrAux.eq_def]; simp]
              rw [ih]
              rfl
            · by_cases h6 : c = Char.ofNat 8
              · subst h6
                show parseStrAux ('\\' :: 'b' :: (escChars cs ++ '"' :: rest)) = _
                rw [show ∀ Y, parseStrAux ('\\' :: 'b' :: Y)
                      = consStr (Char.ofNat 8) (parseStrAux Y)
                      from fun Y => by rw [parseStrAux.eq_def]; simp]
                rw [ih]
                rfl
              · by_cases h7 : c = Char.ofNat 12
                · subst h7
                  show parseStrAux ('\\' :: 'f' :: (escChars cs ++ '"' :: rest)) = _
                  rw [show ∀ Y, parseStrAux ('\\' :: 'f' :: Y)
                        = consStr (Char.ofNat 12) (parseStrAux Y)
                        from fun Y => by rw [parseStrAux.eq_def]; simp]
                  rw [ih]
                  rfl
                · by_cases h8 : c.toNat < 32
                  · rw [show escChar c = '\\' :: 'u' :: '0' :: '0'
                          :: hexDigitChar (c.toNat / 16) :: [hexDigitChar (c.toNat % 16)]
                        from by simp [escChar, h1, h2, h3, h4, h5, h6, h7, h8]]
                    rw [show ('\\' :: 'u' :: '0' :: '0' :: hexDigitChar (c.toNat / 16)
                          :: [hexDigitChar (c.toNat % 16)]) ++ (escChars cs ++ '"' :: rest)
                        = '\\' :: 'u' :: '0' :: '0' :: hexDigitChar (c.toNat / 16)
                          :: hexDigitChar (c.toNat % 16) :: (escChars cs ++ '"' :: rest)
                        from rfl]
                    rw [parseStrAux_u c.toNat h8, ih, charOfNat_toNat]
                    rfl
                  · rw [show escChar c = [c]
                          from by simp [escChar, h1, h2, h3, h4, h5, h6, h7, h8]]
                    rw [show ([c] : List Char) ++ (escChars cs ++ '"' :: rest)
                          = c :: (escChars cs ++ '"' :: rest) from rfl]
                    rw [parseStrAux_raw c _ h1 h2 h8, ih]
                    rfl

theorem skipWs_cons_false (c : Char) (xs : List Char) (h : isWsChar c = false) :
    skipWs (c :: xs) = c :: xs := by
  simp [skipWs, h]

theorem parseVal_ws (fuel : Nat) (c : Char) (xs : List Char) (h : isWsChar c = true) :
    parseVal (fuel + 1) (c :: xs) = parseVal (fuel + 1) xs := by
  simp only [parseVal]
  have hs : skipWs (c :: xs) = skipWs xs := by simp [skipWs, h]
  rw [hs]

theorem parseMember_ws (pv : List Char → Option (JsonVal × List Char)) (c : Char)
    (xs : List Char) (h : isWsChar c = true) :
    parseMember pv (c :: xs) = parseMember pv xs := by
  simp only [parseMember]
  have hs : skipWs (c :: xs) = skipWs xs := by simp [skipWs, h]
  rw [hs]

theorem dumpStrLit_append (s : String) (rest : List Char) :
    dumpStrLit s ++ rest = '"' :: (escChars s.data ++ '"' :: rest) := by
  simp [dumpStrLit]

theorem parseVal_strLit (fuel : Nat) (s : String) (rest : List Char) :
    parseVal (fuel + 1) (dumpStrLit s ++ rest) = some (.str s, rest) := by
  rw [dumpStrLit_append]
  simp only [parseVal]
  rw [skipWs_cons_false _ _ (by decide)]
  simp [parseStrAux_escChars, strMkData]

theorem parseMember_field (fuel : Nat) (k v : String) (rest : List Char) :
    parseMember (parseVal (fuel + 1)) (dumpStrLit k ++ ':' :: ' ' :: (dumpStrLit v ++ rest))
      = some ((k, .str v), rest) := by
  rw [dumpStrLit_append]
  simp only [parseMember]
  rw [skipWs_cons_false _ _ (by decide)]
  simp only [parseStrAux_escChars]
  rw [skipWs_cons_false _ _ (by decide)]
  simp [show ∀ fu xs, parseVal (fu + 1) (' ' :: xs) = parseVal (fu + 1) xs
          from fun fu xs => parseVal_ws fu ' ' xs (by decide),
        parseVal_strLit, strMkData]

theorem parseVal_objHead (fuel : Nat) (t : List Char) :
    parseVal (fuel + 1) (lbrace :: t)
      = (match skipWs t with
         | [] => none
         | c2 :: rest2 =>
           if c2 = rbrace then some (.obj [], rest2)
           else
             match parseListAux (parseMember (parseVal fuel)) rbrace ',' (fuel + 1) (c2 :: rest2) with
             | none => none
             | some (fs, rest3) => some (.obj fs, rest3)) := by
  simp only [parseVal]
  rw [skipWs_cons_false _ _ (by decide)]
  simp only [show ¬(lbrace = '"') from by decide, show ¬(lbrace = '[') from by decide,
             eq_self_iff_true, if_true, if_neg, ite_false]

theorem parseListAux_step (p : List Char → Option (α × List Char)) (close sep : Char)
    (fuel : Nat) (input : List Char) :
    parseListAux p close sep (fuel + 1) input
      = (match p input with
         | none => none
         | some (x, rest) =>
           match skipWs rest with
           | [] => none
           | c :: rest2 =>
             if c = sep then
               match parseListAux p close sep fuel rest2 with
               | none => none
               | some (xs, rest3) => some (x :: xs, rest3)
             else if c = close then some ([x], rest2) else none) := by
  simp only [parseListAux]

theorem dumpCookieObj_append (c : Cookie) (rest : List Char) :
    dumpCookieObj c ++ rest
      = lbrace :: (dumpStrLit "key" ++ ':' :: ' ' :: (dumpStrLit c.name
        ++ ',' :: ' ' :: (dumpStrLit "value" ++ ':' :: ' ' :: (dumpStrLit c.value
        ++ ',' :: ' ' :: (dumpStrLit "host" ++ ':' :: ' ' :: (dumpStrLit c.domain
        ++ ',' :: ' ' :: (dumpStrLit "path" ++ ':' :: ' ' :: (dumpStrLit c.path
        ++ rbrace :: rest)))))))) := by
  simp [dumpCookieObj, List.append_assoc,
        show ": ".data = [':', ' '] from rfl, show ", ".data = [',', ' '] from rfl]

theorem parseVal_cookieObj (fuel : Nat) (c : Cookie) (rest : List Char) :
    parseVal (fuel + 4) (dumpCookieObj c ++ rest) = some (cookieVal c, rest) := by
  rw [dumpCookieObj_append]
  show parseVal (fuel + 3 + 1) _ = _
  rw [parseVal_objHead]
  rw [dumpStrLit_append "key"]
  rw [skipWs_cons_false _ _ (by decide)]
  simp only []
  rw [if_neg (show ¬('"' = rbrace) from by decide)]
  rw [← dumpStrLit_append "key"]
  rw [parseListAux_step, parseMember_field]
  simp only []
  rw [skipWs_cons_false _ _ (by decide)]
  simp only []
  simp only [if_true]
  rw [parseListAux_step, parseMember_ws _ _ _ (by decide), parseMember_field]
  simp only []
  rw [skipWs_cons_false _ _ (by decide)]
  simp only []
  simp only [if_true]
  rw [parseListAux_step, parseMember_ws _ _ _ (by decide), parseMember_field]
  simp only []
  rw [skipWs_cons_false _ _ (by decide)]
  simp only []
  simp only [if_true]
  rw [parseListAux_step, parseMember_ws _ _ _ (by decide), parseMember_field]
  simp only []
  rw [skipWs_cons_false _ _ (by decide)]
  simp only []
  rw [if_neg (show ¬(rbrace = ',') from by decide)]
  simp only [eq_self_iff_true, if_true]
  simp [cookieVal]

theorem parseVal_arrHead (fuel : Nat) (t : List Char) :
    parseVal (fuel + 1) ('[' :: t)
      = (match skipWs t with
         | [] => none
         | c2 :: rest2 =>
           if c2 = ']' then some (.arr [], rest2)
           else
             match parseListAux (parseVal fuel) ']' ',' (fuel + 1) (c2 :: rest2) with
             | none => none
             | some (xs, rest3) => some (.arr xs, rest3)) := by
  simp only [parseVal]
  rw [skipWs_cons_false _ _ (by decide)]
  simp only [show ¬(('[' : Char) = '"') from by decide, eq_self_iff_true, if_true, if_neg,
             ite_false]

theorem parseListAux_pv_ws (fuel lf : Nat) (cl sp : Char) (xs : List Char) :
    parseListAux (parseVal (fuel + 1)) cl sp (lf + 1) (' ' :: xs)
      = parseListAux (parseVal (fuel + 1)) cl sp (lf + 1) xs := by
  rw [parseListAux_step, parseListAux_step, parseVal_ws _ _ _ (by decide)]

theorem parseListAux_objs : ∀ (l : List Cookie), l ≠ [] →
    ∀ (fuel lf : Nat) (rest : List Char), l.length ≤ lf →
    parseListAux (parseVal (fuel + 4)) ']' ',' lf (dumpCookieListAux l ++ ']' :: rest)
      = some (l.map cookieVal, rest)
  | [], h, _, _, _, _ => absurd rfl h
  | [x], _, fuel, lf, rest, hlen => by
    obtain ⟨k, rfl⟩ : ∃ k, lf = k + 1 := ⟨lf - 1, by simp at hlen; omega⟩
    rw [show dumpCookieListAux [x] = dumpCookieObj x from rfl]
    rw [parseListAux_step, parseVal_cookieObj]
    simp only []
    rw [skipWs_cons_false _ _ (by decide)]
    simp only [show ¬((']' : Char) = ',') from by decide, if_neg, ite_false,
               eq_self_iff_true, if_true, List.map]
  | x :: y :: t, _, fuel, lf, rest, hlen => by
    obtain ⟨k, rfl⟩ : ∃ k, lf = k + 1 := ⟨lf - 1, by simp at hlen; omega⟩
    have hk : (y :: t).length ≤ k := by simp at hlen ⊢; omega
    obtain ⟨k2, rfl⟩ : ∃ k2, k = k2 + 1 := ⟨k - 1, by simp at hk; omega⟩
    rw [show dumpCookieListAux (x :: y :: t) ++ ']' :: rest
          = dumpCookieObj x ++ ',' :: ' ' :: (dumpCookieListAux (y :: t) ++ ']' :: rest)
        from by simp [dumpCookieListAux, show ", ".data = [',', ' '] from rfl]]
    rw [parseListAux_step, parseVal_cookieObj]
    simp only []
    rw [skipWs_cons_false _ _ (by decide)]
    simp only [if_true]
    rw [parseListAux_pv_ws]
    rw [parseListAux_objs (y :: t) (by simp) fuel (k2 + 1) rest hk]
    simp only [List.map]

theorem dumpCookieListAux_cons_head (x : Cookie) (t : List Cookie) :
    ∃ Z, dumpCookieListAux (x :: t) = lbrace :: Z := by
  cases t with
  | nil => exact ⟨_, rfl⟩
  | cons y t2 =>
    refine ⟨(dumpStrLit "key" ++ ": ".data ++ dumpStrLit x.name
      ++ ", ".data ++ dumpStrLit "value" ++ ": ".data ++ dumpStrLit x.value
      ++ ", ".data ++ dumpStrLit "host" ++ ": ".data ++ dumpStrLit x.domain
      ++ ", ".data ++ dumpStrLit "path" ++ ": ".data ++ dumpStrLit x.path
      ++ [rbrace]) ++ ", ".data ++ dumpCookieListAux (y :: t2), ?_⟩
    rw [show dumpCookieListAux (x :: y :: t2)
          = dumpCookieObj x ++ ", ".data ++ dumpCookieListAux (y :: t2) from rfl]
    simp [dumpCookieObj]

theorem parseVal_cookieList (l : List Cookie) (fuel : Nat) (rest : List Char)
    (hlen : l.length ≤ fuel + 5) :
    parseVal (fuel + 5) (dumpCookieList l ++ rest) = some (.arr (l.map cookieVal), rest) := by
  cases l with
  | nil =>
    rw [show dumpCookieList [] ++ rest = '[' :: (']' :: rest) from rfl]
    rw [show fuel + 5 = fuel + 4 + 1 from rfl, parseVal_arrHead]
    rw [skipWs_cons_false _ _ (by decide)]
    simp
  | cons x t =>
    obtain ⟨Z, hZ⟩ := dumpCookieListAux_cons_head x t
    rw [show dumpCookieList (x :: t) ++ rest
          = '[' :: (dumpCookieListAux (x :: t) ++ ']' :: rest) from by
        simp [dumpCookieList]]
    rw [show fuel + 5 = fuel + 4 + 1 from rfl, parseVal_arrHead]
    rw [hZ, List.cons_append, skipWs_cons_false _ _ (by decide)]
    simp only [show ¬(lbrace = ']') from by decide, if_neg, ite_false]
    rw [← List.cons_append, ← hZ]
    rw [parseListAux_objs (x :: t) (by simp) fuel (fuel + 4 + 1) rest (by simpa using hlen)]

theorem dumpCookieObj_length (c : Cookie) : 2 ≤ (dumpCookieObj c).length := by
  simp [dumpCookieObj]
  omega

theorem dumpCookieListAux_length :
    ∀ l : List Cookie, l ≠ [] → 2 * l.length ≤ (dumpCookieListAux l).length
  | [], h => absurd rfl h
  | [x], _ => by
    have := dumpCookieObj_length x
    simpa [dumpCookieListAux] using this
  | x :: y :: t, _ => by
    have ih := dumpCookieListAux_length (y :: t) (by simp)
    have hobj := dumpCookieObj_length x
    simp only [dumpCookieListAux, List.length_append, List.length_cons] at ih hobj ⊢
    simp at ih hobj ⊢
    omega

theorem loads_dumpCookieList (l : List Cookie) :
    loads (String.mk (dumpCookieList l)) = some (.arr (l.map cookieVal)) := by
  cases l with
  | nil => rfl
  | cons x t =>
    have hlen2 : 2 * (x :: t).length ≤ (dumpCookieListAux (x :: t)).length :=
      dumpCookieListAux_length _ (by simp)
    have hlen3 : (dumpCookieList (x :: t)).length = (dumpCookieListAux (x :: t)).length + 2 := by
      simp [dumpCookieList]
    unfold loads
    rw [show (String.mk (dumpCookieList (x :: t))).data = dumpCookieList (x :: t) from rfl]
    have hge : 4 ≤ (dumpCookieList (x :: t)).length := by
      simp only [List.length_cons] at hlen2
      omega
    obtain ⟨f, hf⟩ : ∃ f, (dumpCookieList (x :: t)).length + 1 = f + 5 :=
      ⟨(dumpCookieList (x :: t)).length - 4, by omega⟩
    rw [hf]
    rw [show dumpCookieList (x :: t) = dumpCookieList (x :: t) ++ [] from by simp]
    rw [parseVal_cookieList (x :: t) f [] (by simp only [List.length_cons] at hlen2 ⊢; omega)]
    simp [skipWs]

theorem buildCookie_cookieVal (c : Cookie) : buildCookie (cookieVal c) = .ok c := by
  rfl

theorem buildJarAux_map (S : List Cookie) :
    ∀ jar : List Cookie, buildJarAux jar (S.map cookieVal) = .ok (S.foldl jarSet jar) := by
  induction S with
  | nil => intro jar; rfl
  | cons c t ih =>
    intro jar
    simp only [List.map, buildJarAux, buildCookie_cookieVal, List.foldl]
    exact ih (jarSet jar c)

theorem sameCookieKey_comm (a b : Cookie) : sameCookieKey a b = sameCookieKey b a := by
  rw [Bool.eq_iff_iff]
  simp only [sameCookieKey, Bool.and_eq_true, beq_iff_eq]
  constructor
  · intro h
    exact ⟨⟨h.1.1.symm, h.1.2.symm⟩, h.2.symm⟩
  · intro h
    exact ⟨⟨h.1.1.symm, h.1.2.symm⟩, h.2.symm⟩

theorem jarSet_fresh (jar : List Cookie) (c : Cookie)
    (h : jar.any (fun old => sameCookieKey old c) = false) :
    jarSet jar c = jar ++ [c] := by
  simp only [jarSet, h]
  simp

theorem foldl_jarSet_append :
    ∀ S : List Cookie, nodupKeys S = true →
    ∀ jar : List Cookie, (∀ x ∈ S, jar.any (fun old => sameCookieKey old x) = false) →
    S.foldl jarSet jar = jar ++ S
  | [], _, jar, _ => by simp
  | c :: t, hnd, jar, hfresh => by
    simp only [nodupKeys, Bool.and_eq_true] at hnd
    have hhead : ∀ x ∈ t, sameCookieKey c x = false := by
      intro x hx
      have := hnd.1
      simp only [List.all_eq_true] at this
      have h2 := this x hx
      simpa using h2
    simp only [List.foldl]
    rw [jarSet_fresh jar c (hfresh c (by simp))]
    rw [foldl_jarSet_append t hnd.2 (jar ++ [c]) ?_]
    · simp
    · intro x hx
      rw [List.any_append]
      simp only [Bool.or_eq_false_iff]
      refine ⟨hfresh x (by simp [hx]), ?_⟩
      simp [hhead x hx]

theorem foldl_jarSet_nil (S : List Cookie) (h : nodupKeys S = true) :
    S.foldl jarSet [] = S := by
  have := foldl_jarSet_append S h [] (by intro x _; rfl)
  simpa using this

theorem deserialize_serialize_plain (S : List Cookie) (h : nodupKeys S = true) :
    deserialize_token (serialize_token S false) false = .ok S := by
  show deserialize_token (String.mk (dumpCookieList S)) false = .ok S
  simp only [deserialize_token]
  simp only [Bool.false_eq_true, if_false]
  rw [loads_dumpCookieList]
  simp only [pyIter]
  rw [buildJarAux_map]
  rw [foldl_jarSet_nil S h]

theorem char_toNat_bound (c : Char) :
    c.toNat < 55296 ∨ (57343 < c.toNat ∧ c.toNat < 1114112) := by
  rcases c.valid with h | ⟨h1, h2⟩
  · exact Or.inl (UInt32.toNat_lt_of_lt (by decide) h)
  · exact Or.inr ⟨UInt32.lt_toNat_of_lt (by decide) h1, UInt32.toNat_lt_of_lt (by decide) h2⟩

theorem utf8EncChar_lt (c : Char) : ∀ b ∈ utf8EncChar c, b < 256 := by
  have h := char_toNat_bound c
  intro b hb
  by_cases h1 : c.toNat < 128
  · rw [show utf8EncChar c = [c.toNat] from by simp [utf8EncChar, h1]] at hb
    simp at hb
    omega
  · by_cases h2 : c.toNat < 2048
    · rw [show utf8EncChar c = [192 + c.toNat / 64, 128 + c.toNat % 64]
            from by simp [utf8EncChar, h1, h2]] at hb
      simp at hb
      rcases hb with hb | hb <;> omega
    · by_cases h3 : c.toNat < 65536
      · rw [show utf8EncChar c = [224 + c.toNat / 4096, 128 + c.toNat / 64 % 64,
              128 + c.toNat % 64] from by simp [utf8EncChar, h1, h2, h3]] at hb
        simp at hb
        rcases hb with hb | hb | hb <;> omega
      · rw [show utf8EncChar c = [240 + c.toNat / 262144, 128 + c.toNat / 4096 % 64,
              128 + c.toNat / 64 % 64, 128 + c.toNat % 64]
              from by simp [utf8EncChar, h1, h2, h3]] at hb
        simp at hb
        rcases hb with hb | hb | hb | hb <;> omega

theorem utf8Enc_lt (s : String) : ∀ b ∈ utf8Enc s, b < 256 := by
  rw [utf8Enc]
  induction s.data with
  | nil => intro b hb; simp at hb
  | cons c cs ih =>
    intro b hb
    simp only [List.foldr, List.mem_append] at hb
    rcases hb with hb | hb
    · exact utf8EncChar_lt c b hb
    · exact ih b hb

theorem utf8DecodeAux_enc (cs : List Char) :
    utf8DecodeAux (cs.foldr (fun c acc => utf8EncChar c ++ acc) []) = cs := by
  induction cs with
  | nil =>
    show utf8DecodeAux [] = []
    rw [utf8DecodeAux.eq_def]
  | cons c cs ih =>
    have h := char_toNat_bound c
    simp only [List.foldr]
    by_cases h1 : c.toNat < 128
    · rw [show utf8EncChar c = [c.toNat] from by simp [utf8EncChar, h1]]
      rw [List.cons_append, List.nil_append, utf8DecodeAux.eq_def]
      simp only [h1, if_true, ite_true]
      rw [Char.ofNat_toNat, ih]
    · by_cases h2 : c.toNat < 2048
      · rw [show utf8EncChar c = [192 + c.toNat / 64, 128 + c.toNat % 64]
              from by simp [utf8EncChar, h1, h2]]
        simp only [List.cons_append, List.nil_append]
        rw [utf8DecodeAux.eq_def]
        have ha : ¬ (192 + c.toNat / 64 < 128) := by omega
        have hb : 192 + c.toNat / 64 < 224 := by omega
        simp only [ha, hb, if_true, if_false, ite_true, ite_false, List.headD, List.tail]
        rw [show (192 + c.toNat / 64 - 192) * 64 + (128 + c.toNat % 64 - 128) = c.toNat
              from by omega]
        rw [Char.ofNat_toNat, ih]
      · by_cases h3 : c.toNat < 65536
        · rw [show utf8EncChar c = [224 + c.toNat / 4096, 128 + c.toNat / 64 % 64,
                128 + c.toNat % 64] from by simp [utf8EncChar, h1, h2, h3]]
          simp only [List.cons_append, List.nil_append]
          rw [utf8DecodeAux.eq_def]
          have ha : ¬ (224 + c.toNat / 4096 < 128) := by omega
          have hb : ¬ (224 + c.toNat / 4096 < 224) := by omega
          have hb2 : 224 + c.toNat / 4096 < 240 := by omega
          simp only [ha, hb, hb2, if_true, if_false, ite_true, ite_false, List.headD,
                     List.tail]
          rw [show (224 + c.toNat / 4096 - 224) * 4096 + (128 + c.toNat / 64 % 64 - 128) * 64
                + (128 + c.toNat % 64 - 128) = c.toNat from by omega]
          rw [Char.ofNat_toNat, ih]
        · rw [show utf8EncChar c = [240 + c.toNat / 262144, 128 + c.toNat / 4096 % 64,
                128 + c.toNat / 64 % 64, 128 + c.toNat % 64]
                from by simp [utf8EncChar, h1, h2, h3]]
          simp only [List.cons_append, List.nil_append]
          rw [utf8DecodeAux.eq_def]
          have ha : ¬ (240 + c.toNat / 262144 < 128) := by omega
          have hb : ¬ (240 + c.toNat / 262144 < 224) := by omega
          have hb2 : ¬ (240 + c.toNat / 262144 < 240) := by omega
          simp only [ha, hb, hb2, if_true, if_false, ite_true, ite_false, List.headD,
                     List.tail]
          rw [show (240 + c.toNat / 262144 - 240) * 262144
                + (128 + c.toNat / 4096 % 64 - 128) * 4096
                + (128 + c.toNat / 64 % 64 - 128) * 64
                + (128 + c.toNat % 64 - 128) = c.toNat from by omega]
          rw [Char.ofNat_toNat, ih]

theorem utf8_roundtrip (s : String) : utf8DecodeStr (utf8Enc s) = s := by
  rw [utf8DecodeStr, utf8Enc, utf8DecodeAux_enc, strMkData]

theorem b64DecCharUrl_b64CharUrl : ∀ n, n < 64 → b64DecCharUrl (b64CharUrl n) = some n := by
  decide

theorem b64CharUrl_ne_eq : ∀ n, n < 64 → ¬ (b64CharUrl n = '=') := by
  decide

theorem b64CharUrl_keep : ∀ n, n < 64 →
    ((b64DecCharUrl (b64CharUrl n)).isSome || b64CharUrl n = '=') = true := by
  decide

theorem b64CharUrl_token : ∀ n, n < 64 → urlTokenChar (b64CharUrl n) = true := by
  decide

theorem b64EncodeChunks_keep :
    ∀ bs : List Nat, (∀ b ∈ bs, b < 256) →
    ∀ ch ∈ b64EncodeChunks bs, ((b64DecCharUrl ch).isSome || ch = '=') = true
  | [], _, ch, hch => by simp [b64EncodeChunks] at hch
  | [b1], h, ch, hch => by
    have hb1 : b1 < 256 := h b1 (by simp)
    simp only [b64EncodeChunks] at hch
    simp at hch
    rcases hch with rfl | rfl | rfl
    · exact b64CharUrl_keep _ (by omega)
    · exact b64CharUrl_keep _ (by omega)
    · simp
  | [b1, b2], h, ch, hch => by
    have hb1 : b1 < 256 := h b1 (by simp)
    have hb2 : b2 < 256 := h b2 (by simp)
    simp only [b64EncodeChunks] at hch
    simp at hch
    rcases hch with rfl | rfl | rfl | rfl
    · exact b64CharUrl_keep _ (by omega)
    · exact b64CharUrl_keep _ (by omega)
    · exact b64CharUrl_keep _ (by omega)
    · simp
  | b1 :: b2 :: b3 :: rest, h, ch, hch => by
    have hb1 : b1 < 256 := h b1 (by simp)
    have hb2 : b2 < 256 := h b2 (by simp)
    have hb3 : b3 < 256 := h b3 (by simp)
    simp only [b64EncodeChunks] at hch
    simp at hch
    rcases hch with rfl | rfl | rfl | rfl | hch
    · exact b64CharUrl_keep _ (by omega)
    · exact b64CharUrl_keep _ (by omega)
    · exact b64CharUrl_keep _ (by omega)
    · exact b64CharUrl_keep _ (by omega)
    · exact b64EncodeChunks_keep rest (fun b hb => h b (by simp [hb])) ch hch

theorem b64EncodeChunks_token :
    ∀ bs : List Nat, (∀ b ∈ bs, b < 256) →
    ∀ ch ∈ b64EncodeChunks bs, urlTokenChar ch = true
  | [], _, ch, hch => by simp [b64EncodeChunks] at hch
  | [b1], h, ch, hch => by
    have hb1 : b1 < 256 := h b1 (by simp)
    simp only [b64EncodeChunks] at hch
    simp at hch
    rcases hch with rfl | rfl | rfl
    · exact b64CharUrl_token _ (by omega)
    · exact b64CharUrl_token _ (by omega)
    · decide
  | [b1, b2], h, ch, hch => by
    have hb1 : b1 < 256 := h b1 (by simp)
    have hb2 : b2 < 256 := h b2 (by simp)
    simp only [b64EncodeChunks] at hch
    simp at hch
    rcases hch with rfl | rfl | rfl | rfl
    · exact b64CharUrl_token _ (by omega)
    · exact b64CharUrl_token _ (by omega)
    · exact b64CharUrl_token _ (by omega)
    · decide
  | b1 :: b2 :: b3 :: rest, h, ch, hch => by
    have hb1 : b1 < 256 := h b1 (by simp)
    have hb2 : b2 < 256 := h b2 (by simp)
    have hb3 : b3 < 256 := h b3 (by simp)
    simp only [b64EncodeChunks] at hch
    simp at hch
    rcases hch with rfl | rfl | rfl | rfl | hch
    · exact b64CharUrl_token _ (by omega)
    · exact b64CharUrl_token _ (by omega)
    · exact b64CharUrl_token _ (by omega)
    · exact b64CharUrl_token _ (by omega)
    · exact b64EncodeChunks_token rest (fun b hb => h b (by simp [hb])) ch hch

theorem b64DecodeChunks_enc :
    ∀ bs : List Nat, (∀ b ∈ bs, b < 256) →
    b64DecodeChunks (b64EncodeChunks bs) = some bs
  | [], _ => rfl
  | [b1], h => by
    have hb1 : b1 < 256 := h b1 (by simp)
    simp only [b64EncodeChunks, b64DecodeChunks]
    rw [b64DecCharUrl_b64CharUrl _ (by omega), b64DecCharUrl_b64CharUrl _ (by omega)]
    simp only []
    simp
    omega
  | [b1, b2], h => by
    have hb1 : b1 < 256 := h b1 (by simp)
    have hb2 : b2 < 256 := h b2 (by simp)
    simp only [b64EncodeChunks, b64DecodeChunks]
    rw [b64DecCharUrl_b64CharUrl _ (by omega), b64DecCharUrl_b64CharUrl _ (by omega)]
    simp only []
    have hne : ¬ (b64CharUrl ((b2 % 16) * 4) = '=') := b64CharUrl_ne_eq _ (by omega)
    simp only [hne, if_false, ite_false]
    rw [b64DecCharUrl_b64CharUrl _ (by omega)]
    simp
    constructor
    · omega
    · omega
  | b1 :: b2 :: b3 :: rest, h => by
    have hb1 : b1 < 256 := h b1 (by simp)
    have hb2 : b2 < 256 := h b2 (by simp)
    have hb3 : b3 < 256 := h b3 (by simp)
    have hrest : ∀ b ∈ rest, b < 256 := fun b hb => h b (by simp [hb])
    rw [show b64EncodeChunks (b1 :: b2 :: b3 :: rest)
          = b64CharUrl (b1 / 4) :: b64CharUrl ((b1 % 4) * 16 + b2 / 16)
            :: b64CharUrl ((b2 % 16) * 4 + b3 / 64) :: b64CharUrl (b3 % 64)
            :: b64EncodeChunks rest from rfl]
    rw [b64DecodeChunks.eq_def]
    simp only []
    rw [b64DecCharUrl_b64CharUrl _ (by omega), b64DecCharUrl_b64CharUrl _ (by omega)]
    simp only []
    have hne3 : ¬ (b64CharUrl ((b2 % 16) * 4 + b3 / 64) = '=') :=
      b64CharUrl_ne_eq _ (by omega)
    have hne4 : ¬ (b64CharUrl (b3 % 64) = '=') := b64CharUrl_ne_eq _ (by omega)
    simp only [hne3, hne4, if_false, ite_false]
    rw [b64DecCharUrl_b64CharUrl _ (by omega), b64DecCharUrl_b64CharUrl _ (by omega)]
    simp only []
    rw [b64DecodeChunks_enc rest hrest]
    simp only [Option.some.injEq, List.cons.injEq]
    refine ⟨by omega, by omega, by omega, trivial⟩

theorem urlsafeB64Decode_enc (bs : List Nat) (h : ∀ b ∈ bs, b < 256) :
    urlsafeB64Decode (String.mk (b64EncodeChunks bs)) = some bs := by
  rw [urlsafeB64Decode]
  rw [show (String.mk (b64EncodeChunks bs)).data = b64EncodeChunks bs from rfl]
  rw [List.filter_eq_self.mpr (b64EncodeChunks_keep bs h)]
  exact b64DecodeChunks_enc bs h

theorem bz2_roundtrip (bs : List Nat) : bz2Decompress (bz2Compress bs) = some bs := rfl

theorem bz2Compress_lt (bs : List Nat) (h : ∀ b ∈ bs, b < 256) :
    ∀ b ∈ bz2Compress bs, b < 256 := by
  intro b hb
  simp only [bz2Compress, List.mem_cons] at hb
  rcases hb with rfl | rfl | rfl | hb
  · omega
  · omega
  · omega
  · exact h b hb

theorem deserialize_serialize_compressed (S : List Cookie) (h : nodupKeys S = true) :
    deserialize_token (serialize_token S true) true = .ok S := by
  rw [show serialize_token S true
        = String.mk (b64EncodeChunks (bz2Compress (utf8Enc (String.mk (dumpCookieList S)))))
      from rfl]
  simp only [deserialize_token, eq_self_iff_true, if_true]
  rw [urlsafeB64Decode_enc _ (bz2Compress_lt _ (utf8Enc_lt _))]
  simp only []
  rw [bz2_roundtrip]
  simp only []
  rw [utf8_roundtrip]
  rw [loads_dumpCookieList]
  simp only [pyIter]
  rw [buildJarAux_map]
  rw [foldl_jarSet_nil S h]

theorem hexDigVal_hexDigitChar_getD : ∀ k, k < 16 → (hexDigVal (hexDigitChar k)).getD 0 = k := by
  decide

theorem isLowerHexDigit_hexDigitChar : ∀ k, k < 16 → isLowerHexDigit (hexDigitChar k) = true := by
  decide

theorem hexDigitChar_ne_zero : ∀ k, k < 16 → 0 < k → ¬ (hexDigitChar k = '0') := by
  decide

theorem hexCharsVal_append_digit (ds : List Char) (c : Char) :
    hexCharsVal (ds ++ [c]) = hexCharsVal ds * 16 + (hexDigVal c).getD 0 := by
  simp [hexCharsVal, List.foldl_append]

theorem natToHexAux_spec :
    ∀ fuel n acc, 0 < n → n ≤ fuel →
    ∃ ds, natToHexAux fuel n acc = ds ++ acc ∧ ds ≠ []
      ∧ ds.head? ≠ some '0'
      ∧ (∀ ch ∈ ds, isLowerHexDigit ch = true)
      ∧ hexCharsVal ds = n
  | 0, n, acc, hpos, hle => by omega
  | fuel + 1, n, acc, hpos, hle => by
    rw [show natToHexAux (fuel + 1) n acc
          = if n = 0 then acc
            else natToHexAux fuel (n / 16) (hexDigitChar (n % 16) :: acc) from rfl]
    rw [if_neg (by omega)]
    by_cases hq : n / 16 = 0
    · rw [show natToHexAux fuel (n / 16) (hexDigitChar (n % 16) :: acc)
            = natToHexAux fuel 0 (hexDigitChar (n % 16) :: acc) from by rw [hq]]
      rw [show natToHexAux fuel 0 (hexDigitChar (n % 16) :: acc)
            = hexDigitChar (n % 16) :: acc from by cases fuel <;> rfl]
      refine ⟨[hexDigitChar (n % 16)], rfl, by simp, ?_, ?_, ?_⟩
      · have : ¬ (hexDigitChar (n % 16) = '0') :=
          hexDigitChar_ne_zero _ (by omega) (by omega)
        simpa using this
      · intro ch hch
        simp at hch
        subst hch
        exact isLowerHexDigit_hexDigitChar _ (by omega)
      · have := hexDigVal_hexDigitChar_getD (n % 16) (by omega)
        simp [hexCharsVal, this]
        omega
    · obtain ⟨ds, hds, hne, hhead, hdig, hval⟩ :=
        natToHexAux_spec fuel (n / 16) (hexDigitChar (n % 16) :: acc) (by omega) (by omega)
      refine ⟨ds ++ [hexDigitChar (n % 16)], ?_, by simp [hne], ?_, ?_, ?_⟩
      · rw [hds]
        simp
      · cases ds with
        | nil => exact absurd rfl hne
        | cons d ds2 => simpa using hhead
      · intro ch hch
        simp at hch
        rcases hch with hch | hch
        · exact hdig ch hch
        · subst hch
          exact isLowerHexDigit_hexDigitChar _ (by omega)
      · rw [hexCharsVal_append_digit, hval,
           hexDigVal_hexDigitChar_getD (n % 16) (by omega)]
        omega

theorem natToHex_spec (n : Nat) :
    (natToHex n).data ≠ []
      ∧ (∀ ch ∈ (natToHex n).data, isLowerHexDigit ch = true)
      ∧ hexCharsVal (natToHex n).data = n
      ∧ ((natToHex n).data.head? = some '0' → n = 0) := by
  by_cases h : n = 0
  · subst h
    refine ⟨by decide, by decide, by decide, fun _ => rfl⟩
  · rw [natToHex, if_neg h]
    obtain ⟨ds, hds, hne, hhead, hdig, hval⟩ := natToHexAux_spec n n [] (by omega) le_rfl
    rw [show (String.mk (natToHexAux n n [])).data = natToHexAux n n [] from rfl, hds]
    simp only [List.append_nil]
    exact ⟨hne, hdig, hval, fun hh => absurd hh hhead⟩

theorem stringDataEq {a b : String} (h : a.data = b.data) : a = b := by
  cases a
  cases b
  simp at h
  rw [h]

theorem strStartsWith_iff (s p : String) :
    strStartsWith s p = true ↔ ∃ t : String, s = p ++ t := by
  rw [strStartsWith, List.isPrefixOf_iff_prefix]
  constructor
  · intro h
    obtain ⟨t, ht⟩ := h
    refine ⟨String.mk t, stringDataEq ?_⟩
    rw [String.data_append]
    exact ht.symm
  · rintro ⟨t, rfl⟩
    exact ⟨t.data, by rw [String.data_append]⟩

/-- C1: For every cookie set `S` satisfying the data-model invariant (no two
entries share the same (name, domain, path)) and every boolean `c`,
`deserialize_token (serialize_token S c) c` recovers exactly `S`: the
round-trip law `decode(encode(S, c), c) = S`, where literal list equality in
particular gives set equality over the (name, value, domain, path)
four-tuples. -/
theorem claim_C1_token_roundtrip (S : List Cookie) (c : Bool)
    (h : nodupKeys S = true) :
    deserialize_token (serialize_token S c) c = .ok S := by
  cases c
  · exact deserialize_serialize_plain S h
  · exact deserialize_serialize_compressed S h

theorem claim_C1_token_roundtrip_witness :
    nodupKeys [Cookie.mk "JSESSIONID" "abc123" "jw.xtu.edu.cn" "/",
               Cookie.mk "route" "x7f" "portal2020.xtu.edu.cn" "/"] = true
    ∧ deserialize_token (serialize_token
        [Cookie.mk "JSESSIONID" "abc123" "jw.xtu.edu.cn" "/",
         Cookie.mk "route" "x7f" "portal2020.xtu.edu.cn" "/"] false) false
      = .ok [Cookie.mk "JSESSIONID" "abc123" "jw.xtu.edu.cn" "/",
             Cookie.mk "route" "x7f" "portal2020.xtu.edu.cn" "/"]
    ∧ deserialize_token (serialize_token
        [Cookie.mk "JSESSIONID" "abc123" "jw.xtu.edu.cn" "/",
         Cookie.mk "route" "x7f" "portal2020.xtu.edu.cn" "/"] true) true
      = .ok [Cookie.mk "JSESSIONID" "abc123" "jw.xtu.edu.cn" "/",
             Cookie.mk "route" "x7f" "portal2020.xtu.edu.cn" "/"] := by
  refine ⟨by decide, claim_C1_token_roundtrip _ false (by decide),
          claim_C1_token_roundtrip _ true (by decide)⟩

/-- C2: `rsa_encrypt e n p` is a pure function whose result is the bare
lowercase hexadecimal rendering — no prefix, no leading zero padding — of
`m ^ e mod n`, where `m` is the UTF-8 encoding of `p` read as a big-endian
unsigned integer; the modular arithmetic wraps when `m ≥ n` by construction,
and at the toy key (e=17, n=3233) with plaintext "A" (0x41 = 65) the
ciphertext is hex(65^17 mod 3233) = "ae6". -/
theorem claim_C2_rsa_encrypt_hex (e n : Nat) (p : String) (_hn : 1 < n) :
    ((rsa_encrypt e n p).data ≠ []
      ∧ (∀ ch ∈ (rsa_encrypt e n p).data, isLowerHexDigit ch = true)
      ∧ hexCharsVal (rsa_encrypt e n p).data = intFromBytesBE (utf8Enc p) ^ e % n
      ∧ ((rsa_encrypt e n p).data.head? = some '0' →
          intFromBytesBE (utf8Enc p) ^ e % n = 0))
    ∧ rsa_encrypt 17 3233 "A" = natToHex (65 ^ 17 % 3233)
    ∧ rsa_encrypt 17 3233 "A" = "ae6" := by
  refine ⟨natToHex_spec _, by rfl, by rfl⟩

theorem claim_C2_rsa_encrypt_hex_witness :
    1 < 3233 ∧ rsa_encrypt 17 3233 "A" = "ae6" :=
  ⟨by decide, (claim_C2_rsa_encrypt_hex 17 3233 "A" (by decide)).2.2⟩

/-- C4: in the credential-submission step of `sso_auth` the response status
is classified exactly as claimed: status 302 with a `Location` header
captures the redirect target URL and proceeds, status 200 fails as invalid
credentials, status 403 as a disabled account, and any other status as the
catch-all login failure. -/
theorem claim_C4_submit_status (r : SubmitResponse) :
    (∀ l, r.status = 302 → r.location = some l → classifySubmit r = .ok l)
    ∧ (r.status = 200 → classifySubmit r = .error .invalidCredentials)
    ∧ (r.status = 403 → classifySubmit r = .error .accountDisabled)
    ∧ (r.status ≠ 302 → r.status ≠ 200 → r.status ≠ 403 →
        classifySubmit r = .error .loginFailed) := by
  refine ⟨?_, ?_, ?_, ?_⟩
  · intro l h3 hl
    simp [classifySubmit, h3, hl]
  · intro h2
    simp [classifySubmit, h2]
  · intro h4
    simp [classifySubmit, h4]
  · intro h1 h2 h3
    simp [classifySubmit, h1, h2, h3]

theorem claim_C4_submit_status_witness :
    classifySubmit (SubmitResponse.mk 302
        (some "https://portal2020.xtu.edu.cn/application-center?ticket=ST-1") [])
      = .ok "https://portal2020.xtu.edu.cn/application-center?ticket=ST-1"
    ∧ classifySubmit (SubmitResponse.mk 200 none []) = .error .invalidCredentials
    ∧ classifySubmit (SubmitResponse.mk 403 none []) = .error .accountDisabled
    ∧ classifySubmit (SubmitResponse.mk 500 none []) = .error .loginFailed :=
  ⟨(claim_C4_submit_status _).1 _ rfl rfl,
   (claim_C4_submit_status _).2.1 rfl,
   (claim_C4_submit_status _).2.2.1 rfl,
   (claim_C4_submit_status _).2.2.2 (by decide) (by decide) (by decide)⟩

/-- C5: in the redirect-classification step of `sso_auth`, a redirect URL
starting with the configured must-change-password URL constant fails with
the password-change error carrying the username, otherwise a URL not
starting with the configured login-success URL constant fails with the
ticket-not-found error, otherwise the flow proceeds; and `strStartsWith` is
an exact string-prefix check: it holds exactly when the URL is the constant
followed by some suffix. -/
theorem claim_C5_redirect_classify (username url : String) :
    (strStartsWith url get_config.modifyPasswordUrlStart = true →
       classifyRedirect username url = .error (.passwordChangeRequired username))
    ∧ (strStartsWith url get_config.modifyPasswordUrlStart = false →
       strStartsWith url get_config.loginSuccessUrlStart = false →
       classifyRedirect username url = .error .ticketNotFound)
    ∧ (strStartsWith url get_config.modifyPasswordUrlStart = false →
       strStartsWith url get_config.loginSuccessUrlStart = true →
       classifyRedirect username url = .ok ())
    ∧ (∀ p : String, strStartsWith url p = true ↔ ∃ t : String, url = p ++ t) := by
  refine ⟨?_, ?_, ?_, fun p => strStartsWith_iff url p⟩
  · intro h
    simp [classifyRedirect, h]
  · intro h1 h2
    simp [classifyRedirect, h1, h2]
  · intro h1 h2
    simp [classifyRedirect, h1, h2]

theorem claim_C5_redirect_classify_witness :
    classifyRedirect "2021001234"
        "https://portal2020.xtu.edu.cn/im/securitycenter/modifyPwd/index.zf?from=cas"
      = .error (.passwordChangeRequired "2021001234")
    ∧ classifyRedirect "2021001234" "https://evil.example.com/login"
      = .error .ticketNotFound
    ∧ classifyRedirect "2021001234"
        "https://portal2020.xtu.edu.cn/application-center?ticket=ST-1"
      = .ok ()
    ∧ strStartsWith "https://portal2020.xtu.edu.cn/application-center?ticket=ST-1"
        "https://portal2020.xtu.edu.cn/application-center" = true :=
  ⟨(claim_C5_redirect_classify _ _).1 (by decide),
   (claim_C5_redirect_classify _ _).2.1 (by decide) (by decide),
   (claim_C5_redirect_classify _ _).2.2.1 (by decide) (by decide),
   ((claim_C5_redirect_classify "u"
      "https://portal2020.xtu.edu.cn/application-center?ticket=ST-1").2.2.2
      "https://portal2020.xtu.edu.cn/application-center").mpr ⟨"?ticket=ST-1", by decide⟩⟩

/-- C6: `ems_auth_with_sso` issues one redirect-following GET to the fixed
bridging endpoint (its result depends on the environment only through the
response at `emsAuthUrl`); if the final resolved URL does not start with the
EMS homepage URL constant it fails with the authentication error carrying
that final URL, and otherwise it returns the session's accumulated cookie
set (the input jar extended by the cookies the redirect chain set). -/
theorem claim_C6_ems_exchange (jar : List Cookie) (http : String → EmsResponse) :
    (strStartsWith (http emsAuthUrl).url emsHomepageUrlStart = false →
       ems_auth_with_sso jar http
         = .error (.authenticationFailed (http emsAuthUrl).url))
    ∧ (strStartsWith (http emsAuthUrl).url emsHomepageUrlStart = true →
       ems_auth_with_sso jar http
         = .ok ((http emsAuthUrl).cookies.foldl jarSet jar))
    ∧ (∀ http2 : String → EmsResponse, http2 emsAuthUrl = http emsAuthUrl →
        ems_auth_with_sso jar http2 = ems_auth_with_sso jar http) := by
  refine ⟨?_, ?_, ?_⟩
  · intro h
    simp [ems_auth_with_sso, h]
  · intro h
    simp [ems_auth_with_sso, h]
  · intro http2 h
    simp [ems_auth_with_sso, h]

theorem claim_C6_ems_exchange_witness :
    ems_auth_with_sso []
        (fun _ => EmsResponse.mk "https://jw.xtu.edu.cn/sso/login?err=1" 302 [])
      = .error (.authenticationFailed "https://jw.xtu.edu.cn/sso/login?err=1")
    ∧ ems_auth_with_sso []
        (fun _ => EmsResponse.mk
          "https://jw.xtu.edu.cn:443/jwglxt/xtgl/index_initMenu.html?gnmkdm=index"
          200 [Cookie.mk "JSESSIONID" "x" "jw.xtu.edu.cn" "/"])
      = .ok [Cookie.mk "JSESSIONID" "x" "jw.xtu.edu.cn" "/"] :=
  ⟨(claim_C6_ems_exchange [] _).1 (by decide),
   (claim_C6_ems_exchange [] _).2.1 (by decide)⟩

/-- C9: `ems_auth_with_sso` never inspects the HTTP status of the bridging
response: its result is invariant under changing the status, it returns the
accumulated cookie set whenever the final URL starts with the homepage
constant regardless of status (including non-200 statuses), and the
authentication-error branch is decided solely by the URL-prefix check. -/
theorem claim_C9_ems_ignores_status (jar : List Cookie) (url : String)
    (received : List Cookie) (st st2 : Nat) :
    (ems_auth_with_sso jar (fun _ => EmsResponse.mk url st received)
       = ems_auth_with_sso jar (fun _ => EmsResponse.mk url st2 received))
    ∧ (strStartsWith url emsHomepageUrlStart = true →
        ems_auth_with_sso jar (fun _ => EmsResponse.mk url st received)
          = .ok (received.foldl jarSet jar))
    ∧ (strStartsWith url emsHomepageUrlStart = false →
        ems_auth_with_sso jar (fun _ => EmsResponse.mk url st received)
          = .error (.authenticationFailed url)) := by
  refine ⟨by simp [ems_auth_with_sso], ?_, ?_⟩
  · intro h
    simp [ems_auth_with_sso, h]
  · intro h
    simp [ems_auth_with_sso, h]

theorem claim_C9_ems_ignores_status_witness :
    ems_auth_with_sso []
        (fun _ => EmsResponse.mk
          "https://jw.xtu.edu.cn:443/jwglxt/xtgl/index_initMenu.html" 503
          [Cookie.mk "JSESSIONID" "x" "jw.xtu.edu.cn" "/"])
      = .ok [Cookie.mk "JSESSIONID" "x" "jw.xtu.edu.cn" "/"]
    ∧ ems_auth_with_sso []
        (fun _ => EmsResponse.mk "https://jw.xtu.edu.cn/sso/login" 200 [])
      = .error (.authenticationFailed "https://jw.xtu.edu.cn/sso/login") :=
  ⟨(claim_C9_ems_ignores_status [] _ _ 503 0).2.1 (by decide),
   (claim_C9_ems_ignores_status [] _ _ 200 0).2.2 (by decide)⟩

/-- C7 counterexample: on an HTML body that does not contain the literal
marker, the extraction fails with the substring-not-found error — the
`ValueError` that `str.index` itself raises and that `sso_auth` lets
propagate — which is a different failure from the explicit
`CAS Login Page was unavailable` raise embodying `ServiceUnavailableError`;
the claim asserts the latter for the marker-absent case. -/
theorem claim_C7_counterexample :
    extractExecution "<html>login form without the token</html>"
        = .error .substringNotFound
    ∧ SsoError.substringNotFound ≠ SsoError.serviceUnavailable :=
  ⟨by rfl, by decide⟩

/-- C7 (amended): the execution token is extracted by locating the literal
marker substring and reading up to the next quote character; when the marker
(or the closing quote after it) is absent from the body, the operation fails
with the unhandled substring-not-found error of `str.index`, and it fails
with `ServiceUnavailableError` exactly when the span check fails, i.e. when
the extracted span is empty (start index not strictly less than end index);
with marker present and a nonempty span it returns the span. -/
theorem claim_C7_execution_extract_amended (html : String) :
    (subSearch executionMarker.data html.data = none →
       extractExecution html = .error .substringNotFound)
    ∧ (∀ i, subSearch executionMarker.data html.data = some i →
        subSearch ['"'] (html.data.drop (i + executionMarker.length)) = none →
        extractExecution html = .error .substringNotFound)
    ∧ (∀ i, subSearch executionMarker.data html.data = some i →
        subSearch ['"'] (html.data.drop (i + executionMarker.length)) = some 0 →
        extractExecution html = .error .serviceUnavailable)
    ∧ (∀ i j, subSearch executionMarker.data html.data = some i →
        subSearch ['"'] (html.data.drop (i + executionMarker.length)) = some j →
        0 < j →
        extractExecution html
          = .ok (String.mk
              ((html.data.drop (i + executionMarker.length)).take j))) := by
  refine ⟨?_, ?_, ?_, ?_⟩
  · intro h
    simp [extractExecution, h]
  · intro i hi hq
    simp [extractExecution, hi, hq]
  · intro i hi hq
    simp [extractExecution, hi, hq]
  · intro i j hi hq hj
    simp [extractExecution, hi, hq, hj,
          show (0 : Nat) < executionMarker.length from by decide]

theorem claim_C7_execution_extract_amended_witness :
    extractExecution "<p>no marker</p>" = .error .substringNotFound
    ∧ extractExecution "name=\"execution\" value=\"" = .error .substringNotFound
    ∧ extractExecution "name=\"execution\" value=\"\" rest" = .error .serviceUnavailable
    ∧ extractExecution "<input name=\"execution\" value=\"e1s1token\"/>"
        = .ok "e1s1token" :=
  ⟨(claim_C7_execution_extract_amended _).1 (by rfl),
   (claim_C7_execution_extract_amended _).2.1 0 (by rfl) (by rfl),
   (claim_C7_execution_extract_amended _).2.2.1 0 (by rfl) (by rfl),
   (claim_C7_execution_extract_amended _).2.2.2 7 9 (by rfl) (by rfl) (by omega)⟩

/-- C3 counterexample: the token text of an empty JSON object parses (it is
valid JSON) but is not an array of objects carrying the four fields, yet
`deserialize_token` silently returns the empty cookie set instead of failing
with a `FormatError`: the Python loop iterates the empty dict (and likewise
the empty string) and never runs its body.  This contradicts the claim's
"fails with FormatError, never a silent misparse" for such tokens. -/
theorem claim_C3_counterexample :
    loads "\x7b\x7d" = some (JsonVal.obj [])
    ∧ deserialize_token "\x7b\x7d" false = .ok []
    ∧ loads "\"\"" = some (JsonVal.str "")
    ∧ deserialize_token "\"\"" false = .ok [] :=
  ⟨by rfl, by rfl, by rfl, by rfl⟩

/-- C3 (amended): `deserialize_token` surfaces every malformed input as a
`FormatError` — a failed JSON parse with `compressed := false`; a failed
text-safe decode or a failed decompression with `compressed := true`
(which is how a mismatched flag surfaces); a JSON value that Python cannot
iterate; an iterated element that is not an object; and an object missing
one of the four required fields — EXCEPT that a token whose JSON is the
empty object or the empty string is silently accepted as the empty cookie
set, because iterating an empty dict or empty string runs the loop body
zero times. -/
theorem claim_C3_malformed_token_amended (t : String) :
    (loads t = none → deserialize_token t false = .error .jsonError)
    ∧ (urlsafeB64Decode t = none → deserialize_token t true = .error .b64Error)
    ∧ (∀ bs, urlsafeB64Decode t = some bs → bz2Decompress bs = none →
        deserialize_token t true = .error .bz2Error)
    ∧ (∀ v, loads t = some v → pyIter v = none →
        deserialize_token t false = .error .iterError)
    ∧ (∀ k v fs, loads t = some (JsonVal.obj ((k, v) :: fs)) →
        deserialize_token t false = .error .indexError)
    ∧ (∀ c cs, loads t = some (JsonVal.str (String.mk (c :: cs))) →
        deserialize_token t false = .error .indexError)
    ∧ (∀ x elems err, loads t = some (JsonVal.arr (x :: elems)) →
        buildCookie x = .error err →
        deserialize_token t false = .error err)
    ∧ (∀ fields, (pyLookup fields "key" = none ∨ pyLookup fields "value" = none
        ∨ pyLookup fields "host" = none ∨ pyLookup fields "path" = none) →
        buildCookie (JsonVal.obj fields) = .error .fieldError)
    ∧ (∀ x, pyIter x = none → (∀ fs, x ≠ JsonVal.obj fs) →
        buildCookie x = .error .indexError)
    ∧ (loads t = some (JsonVal.obj []) → deserialize_token t false = .ok [])
    ∧ (loads t = some (JsonVal.str "") → deserialize_token t false = .ok []) := by
  refine ⟨?_, ?_, ?_, ?_, ?_, ?_, ?_, ?_, ?_, ?_, ?_⟩
  · intro h
    simp [deserialize_token, h]
  · intro h
    simp [deserialize_token, h]
  · intro bs h1 h2
    simp [deserialize_token, h1, h2]
  · intro v h1 h2
    simp [deserialize_token, h1, h2]
  · intro k v fs h
    simp [deserialize_token, h, pyIter, buildJarAux, buildCookie]
  · intro c cs h
    simp [deserialize_token, h, pyIter, buildJarAux, buildCookie]
  · intro x elems err h1 h2
    simp [deserialize_token, h1, pyIter, buildJarAux, h2]
  · intro fields h
    rcases h with h | h | h | h <;> simp [buildCookie, h]
  · intro x h1 h2
    cases x <;> simp_all [pyIter, buildCookie]
  · intro h
    simp [deserialize_token, h, pyIter, buildJarAux]
  · intro h
    simp [deserialize_token, h, pyIter, buildJarAux]

theorem claim_C3_malformed_token_amended_witness :
    deserialize_token "not json" false = .error .jsonError
    ∧ deserialize_token "k" true = .error .b64Error
    ∧ deserialize_token "YWJj" true = .error .bz2Error
    ∧ deserialize_token "1" false = .error .iterError
    ∧ deserialize_token "\x7b\"a\": 1\x7d" false = .error .indexError
    ∧ deserialize_token "\"ab\"" false = .error .indexError
    ∧ deserialize_token "[\x7b\x7d]" false = .error .fieldError
    ∧ deserialize_token "\x7b\x7d" false = .ok []
    ∧ deserialize_token "\"\"" false = .ok [] :=
  ⟨(claim_C3_malformed_token_amended _).1 (by rfl),
   (claim_C3_malformed_token_amended _).2.1 (by rfl),
   (claim_C3_malformed_token_amended _).2.2.1 [97, 98, 99] (by rfl) (by rfl),
   (claim_C3_malformed_token_amended _).2.2.2.1 (JsonVal.num 1) (by rfl) (by rfl),
   (claim_C3_malformed_token_amended _).2.2.2.2.1 "a" (JsonVal.num 1) [] (by rfl),
   (claim_C3_malformed_token_amended _).2.2.2.2.2.1 'a' ['b'] (by rfl),
   (claim_C3_malformed_token_amended _).2.2.2.2.2.2.1 (JsonVal.obj []) []
     FormatError.fieldError (by rfl) (by rfl),
   (claim_C3_malformed_token_amended _).2.2.2.2.2.2.2.2.2.1 (by rfl),
   (claim_C3_malformed_token_amended _).2.2.2.2.2.2.2.2.2.2 (by rfl)⟩

/-- C8: `serialize_token S false` is exactly the JSON text of the array with
one `{key, value, host, path}` object per cookie in the set's order — it
parses back to precisely that array of objects — and `serialize_token S
true` is that same JSON text passed through the lossless byte compressor
(decompression recovers the exact bytes) and rendered in the url-safe text
alphabet: every character of the compressed token is in `[A-Za-z0-9_-=]`. -/
theorem claim_C8_serialize_format (S : List Cookie) :
    serialize_token S false = String.mk (dumpCookieList S)
    ∧ loads (serialize_token S false) = some (JsonVal.arr (S.map cookieVal))
    ∧ serialize_token S true
        = String.mk (b64EncodeChunks (bz2Compress (utf8Enc (serialize_token S false))))
    ∧ bz2Decompress (bz2Compress (utf8Enc (serialize_token S false)))
        = some (utf8Enc (serialize_token S false))
    ∧ (∀ ch ∈ (serialize_token S true).data, urlTokenChar ch = true) := by
  refine ⟨rfl, loads_dumpCookieList S, rfl, bz2_roundtrip _, ?_⟩
  intro ch hch
  have hdata : (serialize_token S true).data
      = b64EncodeChunks (bz2Compress (utf8Enc (String.mk (dumpCookieList S)))) := rfl
  rw [hdata] at hch
  exact b64EncodeChunks_token _ (bz2Compress_lt _ (utf8Enc_lt _)) ch hch

theorem claim_C8_serialize_format_witness :
    serialize_token [Cookie.mk "k" "v" "h" "/"] false
      = "[\x7b\"key\": \"k\", \"value\": \"v\", \"host\": \"h\", \"path\": \"/\"\x7d]"
    ∧ urlTokenChar 'Q' = true :=
  ⟨((claim_C8_serialize_format [Cookie.mk "k" "v" "h" "/"]).1).trans (by rfl),
   (claim_C8_serialize_format [Cookie.mk "k" "v" "h" "/"]).2.2.2.2 'Q' (by decide)⟩

theorem buildJarAux_forall2 {objs : List (List (String × JsonVal))} {ks : List Cookie}
    (h : List.Forall₂ (fun fields k =>
        pyLookup fields "key" = some (.str k.name)
        ∧ pyLookup fields "value" = some (.str k.value)
        ∧ pyLookup fields "host" = some (.str k.domain)
        ∧ pyLookup fields "path" = some (.str k.path)) objs ks) :
    ∀ jar, buildJarAux jar (objs.map JsonVal.obj) = .ok (ks.foldl jarSet jar) := by
  induction h with
  | nil => intro jar; rfl
  | cons hrel hrest ih =>
    intro jar
    obtain ⟨h1, h2, h3, h4⟩ := hrel
    simp only [List.map, buildJarAux, buildCookie, h1, h2, h3, h4, List.foldl]
    exact ih _

/-- C10: `deserialize_token` tolerates extra fields: any token whose JSON is
an array of objects in which the four fields `key`, `value`, `host`, `path`
are bound (last occurrence winning, as in a Python dict) to the respective
strings of a cookie deserializes successfully to exactly the cookies built
from those four fields, whatever additional fields the objects carry. -/
theorem claim_C10_extra_fields (t : String) (objs : List (List (String × JsonVal)))
    (ks : List Cookie)
    (hload : loads t = some (JsonVal.arr (objs.map JsonVal.obj)))
    (hfields : List.Forall₂ (fun fields k =>
        pyLookup fields "key" = some (.str k.name)
        ∧ pyLookup fields "value" = some (.str k.value)
        ∧ pyLookup fields "host" = some (.str k.domain)
        ∧ pyLookup fields "path" = some (.str k.path)) objs ks) :
    deserialize_token t false = .ok (ks.foldl jarSet []) := by
  simp only [deserialize_token, Bool.false_eq_true, if_false]
  rw [hload]
  simp only [pyIter]
  exact buildJarAux_forall2 hfields []

theorem claim_C10_extra_fields_witness :
    deserialize_token
        "[\x7b\"key\": \"a\", \"value\": \"b\", \"host\": \"c\", \"path\": \"/\", \"ttl\": 5\x7d]"
        false
      = .ok [Cookie.mk "a" "b" "c" "/"] :=
  claim_C10_extra_fields _
    [[("key", .str "a"), ("value", .str "b"), ("host", .str "c"), ("path", .str "/"),
      ("ttl", .num 5)]]
    [Cookie.mk "a" "b" "c" "/"]
    (by rfl)
    (List.Forall₂.cons ⟨by rfl, by rfl, by rfl, by rfl⟩ List.Forall₂.nil)
